import Mathlib

/-!
# Verification of the oracle-sql-runner core against its design spec

Shallow embedding of the Go sources of `iyuangang/oracle-sql-runner`:

* `internal/core` SQL-file segmenter (`ParseFile`, `normalizeSQL`,
  `validateSQLContent`) and executor (`executeTask`, `executeParallel`,
  `isRetryableError`),
* `pkg/models` result aggregation (`Result.AddSuccess` / `Result.AddError`),
* `internal/config` configuration defaulting and validation,
* `executor/pool.go` connection-pool admission (`ConnectionPool.Acquire`),
* `internal/utils/crypto.go` password encryption
  (`EncryptPassword` / `DecryptPassword`, AES-CFB over base64).

Go strings are modelled as `List Char`; raw byte buffers as `List Nat`
(each byte `< 256`).  File contents are modelled after `bufio.Scanner`
line splitting: a list of lines, each line a `List Char` without the
trailing newline.  The AES block cipher, the random IV source and the
database driver are external collaborators and enter as parameters.
-/

namespace OracleSqlRunner

/-- Equality on `Except` values is decidable componentwise (used to
evaluate the embedded functions on concrete inputs). -/
instance {ε α : Type} [DecidableEq ε] [DecidableEq α] :
    DecidableEq (Except ε α) := fun x y =>
  match x, y with
  | Except.error a, Except.error b =>
    if h : a = b then Decidable.isTrue (by rw [h])
    else Decidable.isFalse (by simp [h])
  | Except.ok a, Except.ok b =>
    if h : a = b then Decidable.isTrue (by rw [h])
    else Decidable.isFalse (by simp [h])
  | Except.error _, Except.ok _ => Decidable.isFalse (by simp)
  | Except.ok _, Except.error _ => Decidable.isFalse (by simp)

/-! ## Basic character/string helpers (Go `strings` / `unicode` behaviour) -/

/-- Whitespace recognised by Go `unicode.IsSpace` (ASCII part, which is all
the segmenter logic depends on). -/
def isSpaceChar (c : Char) : Bool :=
  c = ' ' || c = '\t' || c = '\n' || c = '\r' || c = '\x0b' || c = '\x0c'

/-- Go `strings.TrimSpace`. -/
def trimSpace (s : List Char) : List Char :=
  ((s.dropWhile isSpaceChar).reverse.dropWhile isSpaceChar).reverse

/-- ASCII upper-casing of one character (`strings.ToUpper` restricted to
ASCII, which covers every keyword comparison in the source). -/
def upperChar (c : Char) : Char :=
  if 'a' ≤ c ∧ c ≤ 'z' then Char.ofNat (c.toNat - 32) else c

/-- ASCII lower-casing of one character (`strings.ToLower`, ASCII part). -/
def lowerChar (c : Char) : Char :=
  if 'A' ≤ c ∧ c ≤ 'Z' then Char.ofNat (c.toNat + 32) else c

def upperStr (s : List Char) : List Char := s.map upperChar

def lowerStr (s : List Char) : List Char := s.map lowerChar

/-- Convenience: a Go string literal as a character list. -/
def strLit (s : String) : List Char := s.toList

/-- Go `strings.TrimSuffix`. -/
def trimSuffixGo (s suf : List Char) : List Char :=
  if suf.isSuffixOf s then s.take (s.length - suf.length) else s

/-- Go `strings.Contains` (substring containment). -/
def containsStr (s sub : List Char) : Bool :=
  (List.range (s.length + 1)).any fun i => sub.isPrefixOf (s.drop i)

/-! ## Data model (`pkg/models/sql.go`) -/

/-- `models.SQLType`. -/
inductive SQLType where
  | query
  | exec
  | plsql
deriving DecidableEq, Repr

/-- `models.SQLTask`. -/
structure SQLTask where
  SQL : List Char
  sqlType : SQLType
  lineNum : Nat
  filename : List Char
deriving DecidableEq, Repr

/-- `models.SQLError` (one entry of `Result.Errors`). -/
structure SQLError where
  SQL : List Char
  message : List Char
  line : Nat
  file : List Char
deriving DecidableEq, Repr

/-- `models.Result` (timing fields omitted: wall-clock collaborator). -/
structure RunResult where
  success : Nat
  failed : Nat
  errors : List SQLError
deriving DecidableEq, Repr

/-- `models.NewResult`. -/
def newResult : RunResult := ⟨0, 0, []⟩

/-- `Result.AddSuccess` (the mutex only serialises calls; the guarded
update is this pure function). -/
def addSuccess (r : RunResult) : RunResult :=
  { r with success := r.success + 1 }

/-- `Result.AddError`. -/
def addError (r : RunResult) (t : SQLTask) (msg : List Char) : RunResult :=
  { r with
    failed := r.failed + 1
    errors := r.errors ++ [⟨t.SQL, msg, t.lineNum, t.filename⟩] }

/-! ## Lexical segmenter (`internal/core`, `ParseFile` and helpers) -/

/-- The keyword prefixes that switch the scanner into a PL/SQL block
(`ParseFile`, the `inPLSQLBlock = true` condition). -/
def plsqlStarters : List (List Char) :=
  [strLit "BEGIN", strLit "DECLARE",
   strLit "CREATE OR REPLACE PROCEDURE", strLit "CREATE PROCEDURE",
   strLit "CREATE OR REPLACE FUNCTION", strLit "CREATE FUNCTION",
   strLit "CREATE OR REPLACE TRIGGER", strLit "CREATE TRIGGER",
   strLit "CREATE OR REPLACE PACKAGE", strLit "CREATE PACKAGE"]

def startsPLSQLBlock (upperLine : List Char) : Bool :=
  plsqlStarters.any fun p => p.isPrefixOf upperLine

/-- Indentation chosen by `normalizeSQL` for one trimmed PL/SQL line.
The source also computes a minimum indentation over all lines but never
uses it (dead code), so it is not modelled. -/
def normalizeIndent (trimmed : List Char) : List Char :=
  let upperTrimmed := upperStr trimmed
  if (strLit "END").isPrefixOf upperTrimmed
      || (strLit "EXCEPTION").isPrefixOf upperTrimmed then []
  else if (strLit "BEGIN").isPrefixOf upperTrimmed
      || (strLit "DECLARE").isPrefixOf upperTrimmed
      || (strLit "CREATE").isPrefixOf upperTrimmed then []
  else if (strLit "ELSE").isPrefixOf upperTrimmed
      || (strLit "ELSIF").isPrefixOf upperTrimmed then strLit "    "
  else strLit "    "

/-- `normalizeSQL`: ordinary statements are trimmed; PL/SQL blocks are
re-indented line by line, blank lines dropped. -/
def normalizeSQL (sql : List Char) (t : SQLType) : List Char :=
  if t ≠ SQLType.plsql then trimSpace sql
  else
    let lines := sql.splitOn '\n'
    let normalized := lines.filterMap fun line =>
      let trimmed := trimSpace line
      if trimmed = [] then none
      else some (normalizeIndent trimmed ++ trimmed)
    List.intercalate ['\n'] normalized

/-- The SQL keywords accepted by `validateSQLContent`. -/
def validKeywords : List (List Char) :=
  [strLit "SELECT", strLit "INSERT", strLit "UPDATE", strLit "DELETE",
   strLit "CREATE", strLit "ALTER", strLit "DROP", strLit "MERGE",
   strLit "BEGIN", strLit "DECLARE", strLit "EXECUTE", strLit "GRANT",
   strLit "TRUNCATE", strLit "COMMENT", strLit "ANALYZE", strLit "CALL"]

/-- `validateSQLContent`: strip blank and `--` comment lines; reject an
empty remainder; then require at least one known keyword as a substring
of the upper-cased joined content. -/
def validateSQLContent (lines : List (List Char)) : Except (List Char) Unit :=
  let validLines := lines.filterMap fun l =>
    let t := trimSpace l
    if t = [] || (strLit "--").isPrefixOf t then none else some t
  if validLines = [] then
    Except.error (strLit "SQL file is empty or only comments")
  else
    let content := upperStr (List.intercalate [' '] validLines)
    if validKeywords.any (fun k => containsStr content k) then Except.ok ()
    else Except.error (strLit "SQL file has no valid SQL statement")

/-- Scanner state of the `ParseFile` loop. -/
structure ScanState where
  tasks : List SQLTask
  buffer : List Char
  lineNum : Nat
  inPLSQLBlock : Bool
  hasContent : Bool
deriving DecidableEq, Repr

def initScanState : ScanState := ⟨[], [], 0, false, false⟩

/-- One iteration of the `ParseFile` scanner loop on one raw line. -/
def scanLine (path : List Char) (st : ScanState) (rawLine : List Char) :
    ScanState :=
  let lineNum := st.lineNum + 1
  let line := trimSpace rawLine
  if line = [] || (strLit "--").isPrefixOf line then
    { st with lineNum := lineNum }
  else
    let upperLine := upperStr line
    let inPLSQL := st.inPLSQLBlock || startsPLSQLBlock upperLine
    let buffer := st.buffer ++ line ++ ['\n']
    if inPLSQL ∧ line = ['/'] then
      let sql := trimSuffixGo (trimSpace buffer) (strLit "/")
      { tasks := st.tasks ++
          [⟨normalizeSQL sql SQLType.plsql, SQLType.plsql, lineNum, path⟩]
        buffer := []
        lineNum := lineNum
        inPLSQLBlock := false
        hasContent := false }
    else if ¬inPLSQL ∧ (strLit ";").isSuffixOf line then
      let sql := trimSuffixGo (trimSpace buffer) (strLit ";")
      let t := if (strLit "SELECT").isPrefixOf (upperStr sql)
               then SQLType.query else SQLType.exec
      { tasks := st.tasks ++ [⟨normalizeSQL sql t, t, lineNum, path⟩]
        buffer := []
        lineNum := lineNum
        inPLSQLBlock := inPLSQL
        hasContent := false }
    else
      { tasks := st.tasks
        buffer := buffer
        lineNum := lineNum
        inPLSQLBlock := inPLSQL
        hasContent := true }

def scanLines (path : List Char) (lines : List (List Char)) : ScanState :=
  lines.foldl (scanLine path) initScanState

/-- The task `ParseFile` emits at end of file for a leftover buffer. -/
def finalTask (path : List Char) (st : ScanState) : SQLTask :=
  let sql := trimSpace st.buffer
  let t := if (strLit "SELECT").isPrefixOf (upperStr sql)
           then SQLType.query else SQLType.exec
  ⟨normalizeSQL sql t, t, st.lineNum, path⟩

/-- `ParseFile` (file-system errors are a collaborator concern and not
modelled; the content is given as its list of lines). -/
def parseFile (path : List Char) (lines : List (List Char)) :
    Except (List Char) (List SQLTask) :=
  match validateSQLContent lines with
  | Except.error e => Except.error e
  | Except.ok _ =>
    let st := scanLines path lines
    if st.hasContent then Except.ok (st.tasks ++ [finalTask path st])
    else Except.ok st.tasks

/-! ## Retry classifier (`internal/core/executor.go`, `isRetryableError`) -/

def isDigitChar (c : Char) : Bool := '0' ≤ c ∧ c ≤ '9'

def digitsVal (ds : List Char) : Nat :=
  ds.foldl (fun a c => a * 10 + (c.toNat - 48)) 0

/-- The `fmt.Sscanf(errStr, "ORA-%d:", &errorCode)` prefix parse: literal
`ORA-`, then the `%d` verb (optional whitespace, optional sign, at least
one digit), then the literal `:` must follow immediately. -/
def parseORACode (s : List Char) : Option Int :=
  if (strLit "ORA-").isPrefixOf s then
    let r0 := (s.drop 4).dropWhile isSpaceChar
    let signAndRest : Bool × List Char :=
      match r0 with
      | '-' :: rest => (true, rest)
      | '+' :: rest => (false, rest)
      | _ => (false, r0)
    let ds := signAndRest.2.takeWhile isDigitChar
    if ds = [] then none
    else
      match signAndRest.2.drop ds.length with
      | ':' :: _ =>
        some (if signAndRest.1 then -(digitsVal ds : Int) else (digitsVal ds : Int))
      | _ => none
  else none

/-- The `oracleErrors` allow-list of transient ORA codes. -/
def oracleRetryableCodes : List Int :=
  [1033, 1034, 1089, 1090, 1092, 3113, 3114, 12153, 12154, 12170,
   12171, 12257, 12514, 12528, 12537, 12541, 12571]

/-- The `networkErrors` transport-layer phrases. -/
def networkErrorPhrases : List (List Char) :=
  [strLit "connection refused", strLit "connection reset",
   strLit "connection timed out", strLit "no route to host",
   strLit "network is unreachable"]

/-- `isRetryableError`.  The error is modelled as `Option` of its message
string (`none` = Go `nil`).  Note the source returns the allow-list lookup
as soon as the `ORA-%d:` scan succeeds; the network-phrase fallback runs
only when no code could be parsed. -/
def isRetryableError (err : Option (List Char)) : Bool :=
  match err with
  | none => false
  | some s =>
    match parseORACode s with
    | some code => oracleRetryableCodes.contains code
    | none => networkErrorPhrases.any fun p => containsStr (lowerStr s) p

/-! ## Per-statement retry loop (`executeTask`)

The backend call is a collaborator: `exec i` is the outcome of the
`i`-th (0-based) execution attempt, `none` meaning success.  The loop is
instrumented to also return the number of attempts made and the list of
sleep delays (in units of the one-second base interval), so that the
attempt/backoff claims are statable. -/

/-- The body of `for i := 0; i < maxRetries; i++`, with `fuel` the number
of remaining iterations and `i` the current loop index.  Carries the
`err` variable (last error) across iterations; returns
`(final error, attempts made, sleep delays)`. -/
def executeTaskAux (retryable : List Char → Bool)
    (exec : Nat → Option (List Char)) :
    Nat → Nat → Option (List Char) → Option (List Char) × Nat × List Nat
  | 0, _, last => (last, 0, [])
  | fuel + 1, i, _ =>
    let sleeps := if 0 < i then [i] else []
    match exec i with
    | none => (none, 1, sleeps)
    | some e =>
      if retryable e then
        let rest := executeTaskAux retryable exec fuel (i + 1) (some e)
        (rest.1, rest.2.1 + 1, sleeps ++ rest.2.2)
      else (some e, 1, sleeps)

/-- `executeTask`: `maxRetries` is a Go `int`, so negative values are
possible; the loop then runs `maxRetries.toNat` times. -/
def executeTask (retryable : List Char → Bool)
    (exec : Nat → Option (List Char)) (maxRetries : Int) :
    Option (List Char) × Nat × List Nat :=
  executeTaskAux retryable exec maxRetries.toNat 0 none

/-! ## Parallel execution (`executeParallel`)

Each task is handed to one goroutine, which performs exactly one
`result.AddError` or `result.AddSuccess` under the shared mutex.  The
mutex serialises these updates in some order chosen by the scheduler, so
a run is modelled as a fold of the per-task updates over an arbitrary
permutation of the task list; `outcome t` is the value `executeTask`
returned for task `t` in that goroutine. -/

def applyOutcome (outcome : SQLTask → Option (List Char))
    (r : RunResult) (t : SQLTask) : RunResult :=
  match outcome t with
  | some e => addError r t e
  | none => addSuccess r

def executeParallel (outcome : SQLTask → Option (List Char))
    (order : List SQLTask) : RunResult :=
  order.foldl (applyOutcome outcome) newResult

/-! ## Configuration (`internal/config/config.go`) -/

/-- `config.DatabaseConfig` (connection-level fields). -/
structure DatabaseConfig where
  name : List Char
  user : List Char
  password : List Char
  host : List Char
  port : Int
  service : List Char
  maxConnections : Int
deriving DecidableEq, Repr

/-- `config.Config` (the fields `validate` and the executor read). -/
structure Config where
  databases : List (List Char × DatabaseConfig)
  maxRetries : Int
  maxConcurrent : Int
  batchSize : Int
  timeout : Int
deriving DecidableEq, Repr

/-- The defaulting block of `config.Load`: each numeric field is replaced
by its default exactly when it is `0`. -/
def loadDefaults (cfg : Config) : Config :=
  { cfg with
    maxRetries := if cfg.maxRetries = 0 then 3 else cfg.maxRetries
    maxConcurrent := if cfg.maxConcurrent = 0 then 5 else cfg.maxConcurrent
    batchSize := if cfg.batchSize = 0 then 1000 else cfg.batchSize
    timeout := if cfg.timeout = 0 then 30 else cfg.timeout }

/-- `config.validate`: only the database entries are checked. -/
def validateConfig (cfg : Config) : Except (List Char) Unit :=
  if cfg.databases = [] then
    Except.error (strLit "at least one database required")
  else
    match cfg.databases.find? (fun nd =>
        nd.2.user = [] || nd.2.password = [] || nd.2.host = [] ||
        nd.2.port = 0 || nd.2.service = []) with
    | some _ => Except.error (strLit "incomplete database config")
    | none => Except.ok ()

/-! ## Connection-pool admission (`executor/pool.go`, `Acquire`)

`Acquire` under the mutex tests `active >= maxConns`.  In the full case
it unlocks and enters a `select` with exactly two cases: `<-ctx.Done()`
and `<-timer.C` (the pool-wait timer).  The waiting environment is
modelled by the instants at which those two events would fire, plus the
instants at which other workers release slots — the latter appear in the
model only to express claims about them, since no channel in the
`select` is connected to `Release`.  In the non-full case the counter is
incremented and the connection factory (`db.Conn`) may succeed or
fail. -/

structure PoolState where
  active : Int
  maxConns : Int
deriving DecidableEq, Repr

structure AcquireEnv where
  /-- Instant at which `ctx.Done()` fires (`none` = never). -/
  ctxDoneAt : Option Nat
  /-- `p.config.PoolTimeout`: the instant at which `timer.C` fires. -/
  poolTimeout : Nat
  /-- Instants at which other workers call `Release` during the wait. -/
  releaseAt : List Nat
  /-- Whether `p.db.Conn(ctx)` succeeds. -/
  connOk : Bool
deriving DecidableEq, Repr

inductive AcquireResult where
  | lease
  | ctxErr
  | poolTimeoutErr
  | connErr
deriving DecidableEq, Repr

/-- `ConnectionPool.Acquire`. -/
def acquire (st : PoolState) (env : AcquireEnv) :
    AcquireResult × PoolState :=
  if st.active ≥ st.maxConns then
    -- select { case <-ctx.Done(): ...; case <-timer.C: ... }
    match env.ctxDoneAt with
    | some d =>
      if d < env.poolTimeout then (AcquireResult.ctxErr, st)
      else (AcquireResult.poolTimeoutErr, st)
    | none => (AcquireResult.poolTimeoutErr, st)
  else
    let st' : PoolState := { st with active := st.active + 1 }
    if env.connOk then (AcquireResult.lease, st')
    else (AcquireResult.connErr, { st' with active := st'.active - 1 })

/-! ## Password encryption (`internal/utils/crypto.go`)

`EncryptPassword` draws a 16-byte random IV, encrypts the password with
AES-CFB under a fixed key and returns `base64(iv ++ ciphertext)`;
`DecryptPassword` reverses this.  Bytes are `Nat`s `< 256`.  The AES-256
block permutation is a stdlib collaborator and enters as a parameter
`E : List Nat → List Nat` mapping a 16-byte block to a 16-byte block;
CFB mode uses it in the forward direction only, on both paths.  The
random IV is a parameter of `encryptPassword`. -/

def aesBlockSize : Nat := 16

/-- `base64.StdEncoding` alphabet, as ASCII codes. -/
def base64Alphabet : List Nat :=
  (strLit "ABCDEFGHIJKLMNOPQRSTUVWXYZabcdefghijklmnopqrstuvwxyz0123456789+/").map
    Char.toNat

/-- ASCII code of the padding character `=`. -/
def base64Pad : Nat := 61

def base64EncChar (s : Nat) : Nat := base64Alphabet.getD s 0

def base64DecChar (c : Nat) : Option Nat := base64Alphabet.indexOf? c

/-- `base64.StdEncoding.EncodeToString`: 3-byte groups become 4 alphabet
characters; a 2-byte or 1-byte tail is padded with `=`. -/
def base64Encode : List Nat → List Nat
  | b0 :: b1 :: b2 :: rest =>
    base64EncChar (b0 / 4) ::
    base64EncChar ((b0 % 4) * 16 + b1 / 16) ::
    base64EncChar ((b1 % 16) * 4 + b2 / 64) ::
    base64EncChar (b2 % 64) :: base64Encode rest
  | [b0, b1] =>
    [base64EncChar (b0 / 4), base64EncChar ((b0 % 4) * 16 + b1 / 16),
     base64EncChar ((b1 % 16) * 4), base64Pad]
  | [b0] =>
    [base64EncChar (b0 / 4), base64EncChar ((b0 % 4) * 16), base64Pad,
     base64Pad]
  | [] => []

/-- `base64.StdEncoding.DecodeString`: the input must be a sequence of
4-character quartets; `=` padding may only occur as the last one or two
characters of the whole input. -/
def base64Decode : List Nat → Option (List Nat)
  | [] => some []
  | c0 :: c1 :: c2 :: c3 :: rest =>
    match base64DecChar c0, base64DecChar c1 with
    | some s0, some s1 =>
      if c2 = base64Pad then
        if c3 = base64Pad ∧ rest = [] then some [s0 * 4 + s1 / 16]
        else none
      else
        match base64DecChar c2 with
        | some s2 =>
          if c3 = base64Pad then
            if rest = [] then
              some [s0 * 4 + s1 / 16, (s1 % 16) * 16 + s2 / 4]
            else none
          else
            match base64DecChar c3 with
            | some s3 =>
              match base64Decode rest with
              | some bs =>
                some ((s0 * 4 + s1 / 16) :: ((s1 % 16) * 16 + s2 / 4) ::
                      ((s2 % 4) * 64 + s3) :: bs)
              | none => none
            | none => none
        | none => none
    | _, _ => none
  | _ => none

def zipXor (a k : List Nat) : List Nat := List.zipWith (· ^^^ ·) a k

/-- One-segment-per-step loop of CFB encryption
(`cipher.NewCFBEncrypter` + `XORKeyStream`): the keystream for each
16-byte segment is `E` of the previous *ciphertext* segment, seeded with
the IV.  `fuel` only bounds the number of segments processed (any value
`≥ p.length` is exact); it makes the recursion structural. -/
def cfbEncryptAux (E : List Nat → List Nat) :
    Nat → List Nat → List Nat → List Nat
  | 0, _, _ => []
  | fuel + 1, reg, p =>
    if p = [] then []
    else
      let c := zipXor (p.take aesBlockSize) (E reg)
      c ++ cfbEncryptAux E fuel c (p.drop aesBlockSize)

def cfbEncrypt (E : List Nat → List Nat) (reg p : List Nat) : List Nat :=
  cfbEncryptAux E p.length reg p

/-- CFB decryption (`cipher.NewCFBDecrypter`): same keystream, but the
register is refilled from the incoming ciphertext. -/
def cfbDecryptAux (E : List Nat → List Nat) :
    Nat → List Nat → List Nat → List Nat
  | 0, _, _ => []
  | fuel + 1, reg, c =>
    if c = [] then []
    else
      let chunk := c.take aesBlockSize
      zipXor chunk (E reg) ++ cfbDecryptAux E fuel chunk (c.drop aesBlockSize)

def cfbDecrypt (E : List Nat → List Nat) (reg c : List Nat) : List Nat :=
  cfbDecryptAux E c.length reg c

/-- `EncryptPassword` (the random IV is passed in; `rand.Reader` is a
collaborator). -/
def encryptPassword (E : List Nat → List Nat) (iv : List Nat)
    (password : List Nat) : Except (List Char) (List Nat) :=
  if password = [] then Except.error (strLit "empty password")
  else Except.ok (base64Encode (iv ++ cfbEncrypt E iv password))

/-- `DecryptPassword`. -/
def decryptPassword (E : List Nat → List Nat) (encrypted : List Nat) :
    Except (List Char) (List Nat) :=
  if encrypted = [] then Except.error (strLit "empty ciphertext")
  else
    match base64Decode encrypted with
    | none => Except.error (strLit "illegal base64 data")
    | some ciphertext =>
      if ciphertext.length < aesBlockSize then
        Except.error (strLit "ciphertext too short")
      else
        Except.ok (cfbDecrypt E (ciphertext.take aesBlockSize)
          (ciphertext.drop aesBlockSize))

/-! ## Concrete instances used by witnesses and counterexamples -/

def path0 : List Char := strLit "t.sql"

/-- The single-quote character. -/
def sq : Char := Char.ofNat 39

/-- A concrete stand-in for the AES block permutation (the claims hold
for every block function; this one is used to evaluate them). -/
def E0 : List Nat → List Nat := fun _ => List.replicate 16 0

def iv0 : List Nat := List.replicate 16 0

/-- The statement list parsed from the one-line script
`SELECT 1 FROM DUAL;`. -/
def ts0 : List SQLTask :=
  [⟨strLit "SELECT 1 FROM DUAL", SQLType.query, 1, path0⟩]

/-- A concrete configuration with a negative `maxRetries`. -/
def cfg0 : Config := ⟨[], -1, 5, 1000, 30⟩

end OracleSqlRunner

namespace OracleSqlRunner

/-! ## Helper lemmas -/

theorem finalTask_not_plsql (path : List Char) (st : ScanState) :
    (finalTask path st).sqlType ≠ SQLType.plsql := by
  unfold finalTask
  by_cases h : (strLit "SELECT").isPrefixOf (upperStr (trimSpace st.buffer)) = true <;>
    simp [h]

theorem foldl_applyOutcome_counts (outcome : SQLTask → Option (List Char)) :
    ∀ (l : List SQLTask) (r : RunResult),
      (l.foldl (applyOutcome outcome) r).success +
        (l.foldl (applyOutcome outcome) r).failed =
      r.success + r.failed + l.length := by
  intro l
  induction l with
  | nil => intro r; simp
  | cons t l ih =>
    intro r
    simp only [List.foldl_cons, List.length_cons]
    rw [ih]
    unfold applyOutcome
    cases outcome t <;> simp [addSuccess, addError] <;> omega

/-! ## C1 -/

/-- C1: for every script the segmenter accepts, the aggregated result of
the parallel run satisfies `success + failed = number of emitted
statements`: each worker goroutine performs exactly one `AddSuccess` or
`AddError` under the result mutex, so the counts are independent of the
order in which the scheduler interleaves those updates (any permutation
of the task list). -/
theorem run_accounts_every_statement (path : List Char)
    (lines : List (List Char)) (tasks : List SQLTask)
    (outcome : SQLTask → Option (List Char)) (order : List SQLTask)
    (hparse : parseFile path lines = Except.ok tasks)
    (hperm : order.Perm tasks) :
    (executeParallel outcome order).success +
      (executeParallel outcome order).failed = tasks.length := by
  unfold executeParallel
  rw [foldl_applyOutcome_counts]
  simp [newResult, hperm.length_eq]

/-- C1 witness: the one-statement script `SELECT 1 FROM DUAL;` with an
always-succeeding backend. -/
theorem run_accounts_every_statement_witness :
    (executeParallel (fun _ => none) ts0).success +
      (executeParallel (fun _ => none) ts0).failed = ts0.length :=
  run_accounts_every_statement path0 [strLit "SELECT 1 FROM DUAL;"] ts0
    (fun _ => none) ts0 (by decide) (List.Perm.refl _)

/-! ## C2 -/

/-- C2 counterexample: the script `BEGIN\nNULL;\n` ends inside an open
procedural block, yet `ParseFile` does not fail — the leftover buffer is
emitted as a StatementUnit (of `exec` type), contradicting the claim
that this is surfaced as a ParseError and never silently emitted. -/
theorem unterminated_block_is_emitted_not_error :
    parseFile path0 [strLit "BEGIN", strLit "NULL;"] =
      Except.ok [⟨strLit "BEGIN\nNULL;", SQLType.exec, 2, path0⟩] := by
  decide

/-- C2 amended: a file that ends while still inside an open procedural
block is NOT a parse error: whenever content validation passes and the
scan ends with buffered content (in particular with the block flag still
set), `ParseFile` succeeds and appends the leftover buffer as a final
StatementUnit whose type is not `plsql`. -/
theorem unterminated_block_behaviour (path : List Char)
    (lines : List (List Char))
    (hval : validateSQLContent lines = Except.ok ())
    (_hblock : (scanLines path lines).inPLSQLBlock = true)
    (hcontent : (scanLines path lines).hasContent = true) :
    parseFile path lines =
      Except.ok ((scanLines path lines).tasks ++
        [finalTask path (scanLines path lines)]) ∧
    (finalTask path (scanLines path lines)).sqlType ≠ SQLType.plsql := by
  refine ⟨?_, finalTask_not_plsql path _⟩
  unfold parseFile
  rw [hval]
  simp [hcontent]

/-- C2 amended witness: the concrete unterminated script
`BEGIN\nNULL;`. -/
theorem unterminated_block_behaviour_witness :
    parseFile path0 [strLit "BEGIN", strLit "NULL;"] =
      Except.ok ((scanLines path0 [strLit "BEGIN", strLit "NULL;"]).tasks ++
        [finalTask path0 (scanLines path0 [strLit "BEGIN", strLit "NULL;"])]) ∧
    (finalTask path0
      (scanLines path0 [strLit "BEGIN", strLit "NULL;"])).sqlType ≠
        SQLType.plsql :=
  unterminated_block_behaviour path0 [strLit "BEGIN", strLit "NULL;"]
    (by decide) (by decide) (by decide)

/-! ## C3 -/

theorem executeTaskAux_all_retryable (retryable : List Char → Bool)
    (exec : Nat → Option (List Char)) :
    ∀ (f i : Nat) (last : Option (List Char)), 0 < f →
      (∀ j, j < i + f → ∃ e, exec j = some e ∧ retryable e = true) →
      executeTaskAux retryable exec f i last =
        (exec (i + f - 1), f,
          if i = 0 then List.range' 1 (f - 1) else List.range' i f) := by
  intro f
  induction f with
  | zero => intro i last hf; omega
  | succ f ih =>
    intro i last _ hfail
    obtain ⟨e, he, hr⟩ := hfail i (by omega)
    unfold executeTaskAux
    rw [he]
    simp only [hr, if_true]
    cases f with
    | zero =>
      unfold executeTaskAux
      have h1 : i + (0 + 1) - 1 = i := by omega
      rw [h1, he]
      rcases Nat.eq_zero_or_pos i with hi | hi
      · subst hi; simp
      · simp only [if_neg (by omega : ¬i = 0)]
        have : List.range' i 1 = [i] := by simp [List.range']
        simp [this, hi]
    | succ g =>
      rw [ih (i + 1) (some e) (by omega)
        (fun j hj => hfail j (by omega))]
      simp only [if_neg (by omega : ¬i + 1 = 0)]
      rcases Nat.eq_zero_or_pos i with hi | hi
      · subst hi
        simp only [if_pos rfl]
        simp [List.range'_succ]
      · simp only [if_neg (by omega : ¬i = 0), if_pos hi]
        have h2 : (i + 1) + (g + 1) - 1 = i + (g + 1 + 1) - 1 := by omega
        rw [h2]
        simp [hi, List.range'_succ]

/-- C3: the per-statement retry loop.  With `maxRetries = m ≥ 1`:
if every attempt fails with a retryable error, exactly `m` attempts are
made, the returned error is that of the last attempt, and the sleep
before the `(k+1)`-th attempt is `k` base intervals (`[1, …, m-1]`,
linear in the number of completed attempts); if the first attempt fails
with a terminal (non-retryable) error, exactly 1 attempt is made and no
sleep occurs. -/
theorem executeTask_retry_policy (retryable : List Char → Bool)
    (exec : Nat → Option (List Char)) (m : Nat) (hm : 1 ≤ m) :
    ((∀ j, j < m → ∃ e, exec j = some e ∧ retryable e = true) →
      executeTask retryable exec (m : Int) =
        (exec (m - 1), m, List.range' 1 (m - 1))) ∧
    (∀ e, exec 0 = some e → retryable e = false →
      executeTask retryable exec (m : Int) = (some e, 1, [])) := by
  constructor
  · intro hfail
    unfold executeTask
    rw [show ((m : Int).toNat) = m from by omega]
    rw [executeTaskAux_all_retryable retryable exec m 0 none (by omega)
      (fun j hj => hfail j (by omega))]
    simp
  · intro e he hterm
    unfold executeTask
    rw [show ((m : Int).toNat) = m from by omega]
    obtain ⟨f, rfl⟩ : ∃ f, m = f + 1 := ⟨m - 1, by omega⟩
    unfold executeTaskAux
    rw [he]
    simp [hterm]

/-- C3 witness: a retryable failure with `maxRetries = 3` makes 3
attempts sleeping 1 then 2 base intervals; a terminal failure makes 1
attempt with no sleep. -/
theorem executeTask_retry_policy_witness :
    executeTask (fun _ => true) (fun _ => some [' ']) (3 : Int) =
      (some [' '], 3, [1, 2]) ∧
    executeTask (fun _ => false) (fun _ => some [' ']) (3 : Int) =
      (some [' '], 1, []) := by
  constructor
  · have h := (executeTask_retry_policy (fun _ => true)
      (fun _ => some [' ']) 3 (by omega)).1
      (fun j _ => ⟨[' '], rfl, rfl⟩)
    simpa using h
  · exact (executeTask_retry_policy (fun _ => false)
      (fun _ => some [' ']) 3 (by omega)).2 [' '] rfl rfl

/-! ## C4 -/

/-- C4 counterexample: the scanner keeps no quote state.  The statement
`SELECT 'a;\nb';` (a single string literal containing a line break,
whose first line ends in a semicolon inside the quotes) is split into
TWO units, `SELECT 'a` and `b'`, instead of the single unit the claim
requires. -/
theorem quoted_linebreak_statement_splits :
    parseFile path0
      [strLit "SELECT " ++ [sq, 'a', ';'], ['b', sq, ';']] =
      Except.ok
        [⟨strLit "SELECT " ++ [sq, 'a'], SQLType.query, 1, path0⟩,
         ⟨['b', sq], SQLType.exec, 2, path0⟩] := by
  decide

/-- C4 amended: the scanner is line-based and keeps no quote state.  A
semicolon inside a quoted literal survives verbatim exactly when it is
not at the end of a line: `INSERT INTO T VALUES ('a;b');` yields one
exec-typed unit whose text contains the literal `a;b`; but a quoted
literal spanning a line break whose first line ends in `;` splits the
statement (see the counterexample). -/
theorem quoted_semicolon_midline_preserved :
    parseFile path0
      [strLit "INSERT INTO T VALUES (" ++ [sq, 'a', ';', 'b', sq] ++
        strLit ");"] =
      Except.ok
        [⟨strLit "INSERT INTO T VALUES (" ++ [sq, 'a', ';', 'b', sq] ++
          strLit ")", SQLType.exec, 1, path0⟩] := by
  decide

/-! ## C5 -/

/-- C5 counterexample: the pool is full (`active = maxConns = 1`), the
context is never cancelled, another worker releases a slot at instant 1,
well before the pool-wait timeout at instant 5 — yet `Acquire` returns
`ErrPoolTimeout` and no lease: the `select` in the full-pool branch
waits only on `ctx.Done()` and the timer, so the release is never
observed, contradicting the claim that a release before the timeout
yields a lease. -/
theorem acquire_ignores_release :
    ((⟨none, 5, [1], true⟩ : AcquireEnv).releaseAt.any
        (· < (⟨none, 5, [1], true⟩ : AcquireEnv).poolTimeout)) = true ∧
    acquire ⟨1, 1⟩ ⟨none, 5, [1], true⟩ =
      (AcquireResult.poolTimeoutErr, ⟨1, 1⟩) := by
  decide

/-- C5 amended: when `Acquire` is called while `active ≥ maxConns`, it
never returns a lease: it waits only on the caller's cancellation and
the pool-wait timer and fails with `ctx.Err()` or `ErrPoolTimeout`
(whichever fires first), the pool state is unchanged, and the outcome is
independent of any releases performed during the wait. -/
theorem acquire_full_pool_behaviour (st : PoolState) (env : AcquireEnv)
    (hfull : st.active ≥ st.maxConns) :
    ((acquire st env).1 = AcquireResult.ctxErr ∨
      (acquire st env).1 = AcquireResult.poolTimeoutErr) ∧
    (acquire st env).2 = st ∧
    (∀ rs, acquire st ⟨env.ctxDoneAt, env.poolTimeout, rs, env.connOk⟩ =
      acquire st env) := by
  unfold acquire
  simp only [if_pos hfull]
  refine ⟨?_, ?_, ?_⟩
  · cases h : env.ctxDoneAt with
    | none => simp
    | some d =>
      by_cases hd : d < env.poolTimeout <;> simp [hd]
  · cases h : env.ctxDoneAt with
    | none => simp
    | some d =>
      by_cases hd : d < env.poolTimeout <;> simp [hd]
  · intro rs
    trivial

/-- C5 amended witness: the full pool with an uncancelled context. -/
theorem acquire_full_pool_behaviour_witness :
    (((acquire ⟨1, 1⟩ ⟨none, 5, [1], true⟩).1 = AcquireResult.ctxErr ∨
      (acquire ⟨1, 1⟩ ⟨none, 5, [1], true⟩).1 =
        AcquireResult.poolTimeoutErr) ∧
    (acquire ⟨1, 1⟩ ⟨none, 5, [1], true⟩).2 = ⟨1, 1⟩ ∧
    (∀ rs, acquire ⟨1, 1⟩ ⟨none, 5, rs, true⟩ =
      acquire ⟨1, 1⟩ ⟨none, 5, [1], true⟩)) :=
  acquire_full_pool_behaviour ⟨1, 1⟩ ⟨none, 5, [1], true⟩ (by decide)

/-! ## C6 -/

/-- C6 counterexample: the error `ORA-600: connection reset by peer`
carries a structured code (600) outside the allow-list AND a transport
phrase (`connection reset`) in its text, so under the claimed OR
semantics it would be retryable — but `isRetryableError` returns false:
once `Sscanf` extracts an ORA code, the allow-list lookup is returned
immediately and the phrase check never runs. -/
theorem ora_code_shadows_network_phrase :
    isRetryableError
      (some (strLit "ORA-600: connection reset by peer")) = false ∧
    parseORACode (strLit "ORA-600: connection reset by peer") =
      some 600 ∧
    oracleRetryableCodes.contains 600 = false ∧
    (networkErrorPhrases.any fun p =>
      containsStr (lowerStr (strLit "ORA-600: connection reset by peer"))
        p) = true := by
  decide

/-- C6 amended: the two checks are sequential, not OR'd.  When the
`ORA-%d:` prefix parse succeeds, the allow-list lookup alone decides
retryability (the transport-phrase check is skipped); the phrase check
against the lower-cased text applies only when no structured code can be
parsed.  An error matching neither rule is terminal. -/
theorem isRetryable_sequential_checks :
    (∀ (s : List Char) (c : Int), parseORACode s = some c →
      isRetryableError (some s) = oracleRetryableCodes.contains c) ∧
    (∀ s : List Char, parseORACode s = none →
      isRetryableError (some s) =
        (networkErrorPhrases.any fun p => containsStr (lowerStr s) p)) := by
  constructor
  · intro s c hc
    simp [isRetryableError, hc]
  · intro s hc
    simp [isRetryableError, hc]

/-- C6 amended witness: an allow-listed code is retryable by the code
path alone; a codeless transport error is retryable by the phrase
path. -/
theorem isRetryable_sequential_checks_witness :
    isRetryableError (some (strLit "ORA-1033: initialization")) =
      oracleRetryableCodes.contains 1033 ∧
    isRetryableError (some (strLit "dial tcp: connection refused")) =
      (networkErrorPhrases.any fun p =>
        containsStr (lowerStr (strLit "dial tcp: connection refused")) p) :=
  ⟨isRetryable_sequential_checks.1 (strLit "ORA-1033: initialization")
      1033 (by decide),
   isRetryable_sequential_checks.2 (strLit "dial tcp: connection refused")
      (by decide)⟩

/-! ## C7 -/

/-- C7 counterexample: in the script `SELECT 1 FROM DUAL;\n;` the stray
terminator line `;` produces an emitted StatementUnit whose text is
EMPTY, contradicting the claim that emitted units are never empty and
that stray terminators never produce units. -/
theorem stray_terminator_emits_empty_unit :
    parseFile path0 [strLit "SELECT 1 FROM DUAL;", strLit ";"] =
      Except.ok
        [⟨strLit "SELECT 1 FROM DUAL", SQLType.query, 1, path0⟩,
         ⟨[], SQLType.exec, 2, path0⟩] := by
  decide

/-- C7 amended: input consisting only of blank lines and `--` comments
is rejected up front by `validateSQLContent` and never produces a unit;
but emptiness of emitted units is NOT guaranteed in general — a stray
`;` line inside an otherwise valid file is emitted as a unit with empty
text (see the counterexample). -/
theorem comment_only_input_rejected (path : List Char)
    (lines : List (List Char))
    (hnoise : ∀ l ∈ lines, trimSpace l = [] ∨
      (strLit "--").isPrefixOf (trimSpace l) = true) :
    ∃ e, parseFile path lines = Except.error e := by
  refine ⟨strLit "SQL file is empty or only comments", ?_⟩
  unfold parseFile validateSQLContent
  have hnil : (lines.filterMap fun l =>
      let t := trimSpace l
      if t = [] || (strLit "--").isPrefixOf t then none else some t) = [] := by
    rw [List.filterMap_eq_nil]
    intro l hl
    rcases hnoise l hl with h | h <;> simp [h]
  rw [hnil]
  simp

/-- C7 amended witness: a file of one comment line and one blank line is
rejected. -/
theorem comment_only_input_rejected_witness :
    ∃ e, parseFile path0 [strLit "-- a comment", []] = Except.error e :=
  comment_only_input_rejected path0 [strLit "-- a comment", []]
    (by decide)

/-! ## C10 -/

theorem executeParallel_all_none (outcome : SQLTask → Option (List Char))
    (hout : ∀ t, outcome t = none) :
    ∀ (order : List SQLTask) (r : RunResult),
      (order.foldl (applyOutcome outcome) r).success =
        r.success + order.length ∧
      (order.foldl (applyOutcome outcome) r).failed = r.failed := by
  intro order
  induction order with
  | nil => intro r; simp
  | cons t l ih =>
    intro r
    simp only [List.foldl_cons, List.length_cons]
    have hstep : applyOutcome outcome r t = addSuccess r := by
      unfold applyOutcome
      rw [hout t]
    rw [hstep]
    have h := ih (addSuccess r)
    rw [h.1, h.2]
    exact ⟨by simp [addSuccess]; omega, by simp [addSuccess]⟩

/-- C10: the `maxRetries ≤ 0` boundary.  `config.Load` replaces
`MaxRetries` by the default 3 only when it is exactly 0 (a negative
value survives), `validate` never inspects `MaxRetries`, and with
`maxRetries ≤ 0` the retry loop of `executeTask` makes ZERO execution
attempts and returns `nil`, so `executeParallel` records every parsed
statement as a success although nothing was executed — the documented
floor of one attempt per statement does not hold there. -/
theorem maxRetries_nonpositive_counts_all_success (cfg : Config)
    (n : Int) (hneg : cfg.maxRetries < 0) (hn : n ≤ 0)
    (retryable : List Char → Bool)
    (execFor : SQLTask → Nat → Option (List Char))
    (order : List SQLTask) :
    (loadDefaults cfg).maxRetries = cfg.maxRetries ∧
    (∀ m : Int, validateConfig { cfg with maxRetries := m } =
      validateConfig cfg) ∧
    (∀ t, executeTask retryable (execFor t) n = (none, 0, [])) ∧
    (executeParallel
        (fun t => (executeTask retryable (execFor t) n).1) order).success =
      order.length ∧
    (executeParallel
        (fun t => (executeTask retryable (execFor t) n).1) order).failed =
      0 := by
  have hzero : ∀ t, executeTask retryable (execFor t) n = (none, 0, []) := by
    intro t
    unfold executeTask
    rw [show (n.toNat) = 0 from by omega]
    rfl
  refine ⟨?_, ?_, hzero, ?_, ?_⟩
  · unfold loadDefaults
    simp [show ¬cfg.maxRetries = 0 from by omega]
  · intro m
    rfl
  · have h := executeParallel_all_none
      (fun t => (executeTask retryable (execFor t) n).1)
      (fun t => by
        show (executeTask retryable (execFor t) n).1 = none
        rw [hzero t]) order newResult
    unfold executeParallel
    rw [h.1]
    simp [newResult]
  · have h := executeParallel_all_none
      (fun t => (executeTask retryable (execFor t) n).1)
      (fun t => by
        show (executeTask retryable (execFor t) n).1 = none
        rw [hzero t]) order newResult
    unfold executeParallel
    rw [h.2]
    simp [newResult]

/-- C10 witness: a config with `maxRetries = -1` keeps it through
defaulting, passes validation, and a one-statement run is counted as one
success with zero attempts. -/
theorem maxRetries_nonpositive_counts_all_success_witness :
    (loadDefaults cfg0).maxRetries = cfg0.maxRetries ∧
    (∀ m : Int, validateConfig { cfg0 with maxRetries := m } =
      validateConfig cfg0) ∧
    (∀ t : SQLTask, executeTask (fun _ => true)
      ((fun (_ : SQLTask) (_ : Nat) => some [' ']) t) (-1) =
      (none, 0, [])) ∧
    (executeParallel
        (fun t => (executeTask (fun _ => true)
          ((fun (_ : SQLTask) (_ : Nat) => some [' ']) t) (-1)).1)
        ts0).success = ts0.length ∧
    (executeParallel
        (fun t => (executeTask (fun _ => true)
          ((fun (_ : SQLTask) (_ : Nat) => some [' ']) t) (-1)).1)
        ts0).failed = 0 :=
  maxRetries_nonpositive_counts_all_success cfg0 (-1)
    (by decide) (by decide) (fun _ => true)
    (fun (_ : SQLTask) (_ : Nat) => some [' ']) ts0

/-! ## Crypto helper lemmas -/

theorem base64DecChar_encChar : ∀ s, s < 64 →
    base64DecChar (base64EncChar s) = some s := by decide

theorem base64EncChar_ne_pad : ∀ s, s < 64 →
    base64EncChar s ≠ base64Pad := by decide

theorem base64Decode_encode : ∀ (bs : List Nat), (∀ b ∈ bs, b < 256) →
    base64Decode (base64Encode bs) = some bs
  | [], _ => rfl
  | [b0], hb => by
    have h0 : b0 < 256 := hb b0 (by simp)
    have d0 := base64DecChar_encChar (b0 / 4) (by omega)
    have d1 := base64DecChar_encChar (b0 % 4 * 16) (by omega)
    simp [base64Encode, base64Decode, d0, d1]
    omega
  | [b0, b1], hb => by
    have h0 : b0 < 256 := hb b0 (by simp)
    have h1 : b1 < 256 := hb b1 (by simp)
    have d0 := base64DecChar_encChar (b0 / 4) (by omega)
    have d1 := base64DecChar_encChar (b0 % 4 * 16 + b1 / 16) (by omega)
    have d2 := base64DecChar_encChar (b1 % 16 * 4) (by omega)
    have n2 := base64EncChar_ne_pad (b1 % 16 * 4) (by omega)
    simp [base64Encode, base64Decode, d0, d1, d2, n2]
    omega
  | b0 :: b1 :: b2 :: rest, hb => by
    have h0 : b0 < 256 := hb b0 (by simp)
    have h1 : b1 < 256 := hb b1 (by simp)
    have h2 : b2 < 256 := hb b2 (by simp)
    have ih := base64Decode_encode rest (fun b h => hb b (by simp [h]))
    have d0 := base64DecChar_encChar (b0 / 4) (by omega)
    have d1 := base64DecChar_encChar (b0 % 4 * 16 + b1 / 16) (by omega)
    have d2 := base64DecChar_encChar (b1 % 16 * 4 + b2 / 64) (by omega)
    have d3 := base64DecChar_encChar (b2 % 64) (by omega)
    have n2 := base64EncChar_ne_pad (b1 % 16 * 4 + b2 / 64) (by omega)
    have n3 := base64EncChar_ne_pad (b2 % 64) (by omega)
    simp [base64Encode, base64Decode, d0, d1, d2, d3, n2, n3, ih]
    omega

theorem base64Encode_ne_nil : ∀ (b : Nat) (l : List Nat),
    base64Encode (b :: l) ≠ [] := by
  intro b l
  match l with
  | [] => simp [base64Encode]
  | [b1] => simp [base64Encode]
  | b1 :: b2 :: r => simp [base64Encode]

theorem zipXor_zipXor : ∀ (a k : List Nat), a.length ≤ k.length →
    zipXor (zipXor a k) k = a := by
  intro a
  induction a with
  | nil => intro k h; simp [zipXor]
  | cons x xs ih =>
    intro k h
    cases k with
    | nil => simp at h
    | cons y ys =>
      simp only [zipXor, List.zipWith_cons_cons] at ih ⊢
      rw [Nat.xor_cancel_right y x, ih ys (by simpa using h)]

theorem zipXor_bytes_lt (a k : List Nat) (ha : ∀ x ∈ a, x < 256)
    (hk : ∀ x ∈ k, x < 256) : ∀ x ∈ zipXor a k, x < 256 := by
  induction a generalizing k with
  | nil => intro x hx; simp [zipXor] at hx
  | cons a0 as ih =>
    cases k with
    | nil => intro x hx; simp [zipXor] at hx
    | cons b bs =>
      intro x hx
      simp only [zipXor, List.zipWith_cons_cons, List.mem_cons] at hx
      rcases hx with rfl | hx
      · have ha0 : a0 < 2 ^ 8 := by
          have := ha a0 (by simp); norm_num; omega
        have hb0 : b < 2 ^ 8 := by
          have := hk b (by simp); norm_num; omega
        have := Nat.xor_lt_two_pow ha0 hb0
        norm_num at this
        omega
      · exact ih bs (fun y hy => ha y (by simp [hy]))
          (fun y hy => hk y (by simp [hy])) x hx

theorem cfbEncryptAux_nil (E : List Nat → List Nat) :
    ∀ (f : Nat) (reg : List Nat), cfbEncryptAux E f reg [] = [] := by
  intro f reg
  cases f <;> simp [cfbEncryptAux]

theorem cfbDecryptAux_nil (E : List Nat → List Nat) :
    ∀ (f : Nat) (reg : List Nat), cfbDecryptAux E f reg [] = [] := by
  intro f reg
  cases f <;> simp [cfbDecryptAux]

theorem cfbEncryptAux_length (E : List Nat → List Nat)
    (hE : ∀ xs, (E xs).length = 16) :
    ∀ (f : Nat) (p reg : List Nat), p.length ≤ f →
      (cfbEncryptAux E f reg p).length = p.length := by
  intro f
  induction f with
  | zero =>
    intro p reg hf
    have : p = [] := by
      cases p with
      | nil => rfl
      | cons a l => simp at hf
    simp [this, cfbEncryptAux]
  | succ f ih =>
    intro p reg hf
    by_cases hp : p = []
    · simp [hp, cfbEncryptAux]
    · simp only [cfbEncryptAux, if_neg hp, List.length_append]
      have hplen : 0 < p.length := List.length_pos.mpr hp
      have hc : (zipXor (p.take aesBlockSize) (E reg)).length =
          min p.length aesBlockSize := by
        simp [zipXor, hE, aesBlockSize]
        omega
      rw [hc, ih (p.drop aesBlockSize) _ (by simp [aesBlockSize] <;> omega)]
      simp [aesBlockSize]
      omega

theorem cfbEncryptAux_bytes_lt (E : List Nat → List Nat)
    (hEb : ∀ xs, ∀ x ∈ E xs, x < 256) :
    ∀ (f : Nat) (p reg : List Nat), (∀ x ∈ p, x < 256) →
      ∀ x ∈ cfbEncryptAux E f reg p, x < 256 := by
  intro f
  induction f with
  | zero => intro p reg hp x hx; simp [cfbEncryptAux] at hx
  | succ f ih =>
    intro p reg hp x hx
    by_cases hpe : p = []
    · simp [hpe, cfbEncryptAux] at hx
    · simp only [cfbEncryptAux, if_neg hpe, List.mem_append] at hx
      rcases hx with hx | hx
      · exact zipXor_bytes_lt _ _
          (fun y hy => hp y (List.take_subset _ _ hy)) (hEb reg) x hx
      · exact ih (p.drop aesBlockSize) _
          (fun y hy => hp y (List.drop_subset _ _ hy)) x hx

theorem cfb_cancel (E : List Nat → List Nat)
    (hE : ∀ xs, (E xs).length = 16) :
    ∀ (f1 f2 : Nat) (p reg : List Nat), p.length ≤ f1 → p.length ≤ f2 →
      cfbDecryptAux E f2 reg (cfbEncryptAux E f1 reg p) = p := by
  intro f1
  induction f1 with
  | zero =>
    intro f2 p reg h1 h2
    have : p = [] := by
      cases p with
      | nil => rfl
      | cons a l => simp at h1
    simp [this, cfbEncryptAux_nil, cfbDecryptAux_nil]
  | succ f1 ih =>
    intro f2 p reg h1 h2
    by_cases hp : p = []
    · simp [hp, cfbEncryptAux_nil, cfbDecryptAux_nil]
    · have hplen : 0 < p.length := List.length_pos.mpr hp
      obtain ⟨g2, rfl⟩ : ∃ g2, f2 = g2 + 1 := ⟨f2 - 1, by omega⟩
      simp only [cfbEncryptAux, if_neg hp]
      have hclen : (zipXor (p.take aesBlockSize) (E reg)).length =
          min p.length aesBlockSize := by
        simp [zipXor, hE, aesBlockSize]
        omega
      set c := zipXor (p.take aesBlockSize) (E reg) with hc
      have hcne : c ≠ [] := by
        intro habs
        rw [habs] at hclen
        simp [aesBlockSize] at hclen
        omega
      have hne : c ++ cfbEncryptAux E f1 c (p.drop aesBlockSize) ≠ [] := by
        simp [hcne]
      simp only [cfbDecryptAux, if_neg hne]
      by_cases hlong : aesBlockSize ≤ p.length
      · have hc16 : c.length = aesBlockSize := by omega
        have htake : (c ++ cfbEncryptAux E f1 c (p.drop aesBlockSize)).take
            aesBlockSize = c := by
          rw [← hc16, List.take_left]
        have hdrop : (c ++ cfbEncryptAux E f1 c (p.drop aesBlockSize)).drop
            aesBlockSize = cfbEncryptAux E f1 c (p.drop aesBlockSize) := by
          rw [← hc16, List.drop_left]
        rw [htake, hdrop]
        have hxor : zipXor c (E reg) = p.take aesBlockSize := by
          rw [hc]
          exact zipXor_zipXor (p.take aesBlockSize) (E reg)
            (by simp [hE, aesBlockSize])
        rw [hxor, ih g2 (p.drop aesBlockSize) c
          (by simp [aesBlockSize] <;> omega) (by simp [aesBlockSize] <;> omega)]
        exact List.take_append_drop aesBlockSize p
      · have hshort : p.length < aesBlockSize := by omega
        have hdropnil : p.drop aesBlockSize = [] := by
          apply List.drop_eq_nil_of_le
          omega
        rw [hdropnil, cfbEncryptAux_nil, List.append_nil]
        have htake : c.take aesBlockSize = c :=
          List.take_of_length_le (by omega)
        have hdrop : c.drop aesBlockSize = [] := by
          apply List.drop_eq_nil_of_le
          omega
        rw [htake, hdrop, cfbDecryptAux_nil, List.append_nil]
        have hptake : p.take aesBlockSize = p :=
          List.take_of_length_le (by omega)
        rw [hc, zipXor_zipXor (p.take aesBlockSize) (E reg)
          (by simp [hE, aesBlockSize]), hptake]

theorem cfb_roundtrip (E : List Nat → List Nat)
    (hE : ∀ xs, (E xs).length = 16) (reg p : List Nat) :
    cfbDecrypt E reg (cfbEncrypt E reg p) = p := by
  unfold cfbDecrypt cfbEncrypt
  rw [cfbEncryptAux_length E hE p.length p reg (le_refl _)]
  exact cfb_cancel E hE p.length p.length p reg (le_refl _) (le_refl _)

/-! ## C8 -/

/-- C8: `DecryptPassword ∘ EncryptPassword` is the identity on non-empty
plaintexts, for every block permutation `E` producing 16-byte blocks of
bytes, every 16-byte IV and every byte-valued plaintext: encryption
succeeds and decryption of its output returns the original password. -/
theorem encrypt_decrypt_roundtrip (E : List Nat → List Nat)
    (iv p : List Nat)
    (hE : ∀ xs, (E xs).length = 16)
    (hEb : ∀ xs, ∀ x ∈ E xs, x < 256)
    (hiv : iv.length = 16) (hivb : ∀ x ∈ iv, x < 256)
    (hp : p ≠ []) (hpb : ∀ x ∈ p, x < 256) :
    encryptPassword E iv p =
      Except.ok (base64Encode (iv ++ cfbEncrypt E iv p)) ∧
    decryptPassword E (base64Encode (iv ++ cfbEncrypt E iv p)) =
      Except.ok p := by
  constructor
  · unfold encryptPassword
    rw [if_neg hp]
  · have hallb : ∀ x ∈ iv ++ cfbEncrypt E iv p, x < 256 := by
      intro x hx
      rcases List.mem_append.mp hx with h | h
      · exact hivb x h
      · exact cfbEncryptAux_bytes_lt E hEb p.length p iv hpb x h
    have hne : iv ++ cfbEncrypt E iv p ≠ [] := by
      intro habs
      have : iv = [] := by
        rcases List.append_eq_nil.mp habs with ⟨h, _⟩
        exact h
      rw [this] at hiv
      simp at hiv
    have hsne : base64Encode (iv ++ cfbEncrypt E iv p) ≠ [] := by
      cases hl : iv ++ cfbEncrypt E iv p with
      | nil => exact absurd hl hne
      | cons b l => exact base64Encode_ne_nil b l
    have hlen : (iv ++ cfbEncrypt E iv p).length =
        16 + (cfbEncrypt E iv p).length := by simp [hiv]
    have hnotshort : ¬(iv ++ cfbEncrypt E iv p).length < aesBlockSize := by
      rw [hlen]
      simp [aesBlockSize]
    have htake : (iv ++ cfbEncrypt E iv p).take aesBlockSize = iv := by
      have h16 : aesBlockSize = iv.length := by rw [hiv]; rfl
      rw [h16, List.take_left]
    have hdrop : (iv ++ cfbEncrypt E iv p).drop aesBlockSize =
        cfbEncrypt E iv p := by
      have h16 : aesBlockSize = iv.length := by rw [hiv]; rfl
      rw [h16, List.drop_left]
    unfold decryptPassword
    rw [if_neg hsne, base64Decode_encode (iv ++ cfbEncrypt E iv p) hallb]
    simp only [hnotshort, if_false, htake, hdrop,
      cfb_roundtrip E hE iv p]

/-- C8 witness: a one-byte password under a concrete block function and
IV round-trips. -/
theorem encrypt_decrypt_roundtrip_witness :
    encryptPassword E0 iv0 [97] =
      Except.ok (base64Encode (iv0 ++ cfbEncrypt E0 iv0 [97])) ∧
    decryptPassword E0 (base64Encode (iv0 ++ cfbEncrypt E0 iv0 [97])) =
      Except.ok [97] :=
  encrypt_decrypt_roundtrip E0 iv0 [97]
    (fun _ => by simp [E0]) (fun _ x hx => by simp [E0] at hx; omega)
    (by decide) (by decide) (by decide) (by decide)

/-! ## C9 -/

/-- C9 counterexample: `EncryptPassword` of the byte `97` produces the
blob `base64(iv0 ++ [97])`; replacing its last decoded byte by `98` is a
modification of the decoded bytes, yet `DecryptPassword` SUCCEEDS on the
tampered blob and returns the wrong plaintext `[98]` instead of failing:
the scheme (CFB without any authentication tag) performs no integrity
check, contradicting the claim. -/
theorem tampered_ciphertext_decrypts :
    encryptPassword E0 iv0 [97] =
      Except.ok (base64Encode (iv0 ++ [97])) ∧
    base64Encode (iv0 ++ [98]) ≠ base64Encode (iv0 ++ [97]) ∧
    decryptPassword E0 (base64Encode (iv0 ++ [98])) = Except.ok [98] := by
  decide

/-- C9 amended: `DecryptPassword` fails only on an empty input, on
input that is not valid base64, or on decoded contents shorter than one
16-byte block; on EVERY well-formed blob of at least 16 decoded bytes it
succeeds (returning whatever CFB produces), so corruption within a
well-formed blob is never detected as an error. -/
theorem decrypt_accepts_all_wellformed_blobs (E : List Nat → List Nat)
    (bytes : List Nat) (hlen : 16 ≤ bytes.length)
    (hb : ∀ x ∈ bytes, x < 256) :
    decryptPassword E (base64Encode bytes) =
      Except.ok (cfbDecrypt E (bytes.take aesBlockSize)
        (bytes.drop aesBlockSize)) := by
  have hne : bytes ≠ [] := by
    intro habs
    rw [habs] at hlen
    simp at hlen
  have hsne : base64Encode bytes ≠ [] := by
    cases hl : bytes with
    | nil => exact absurd hl hne
    | cons b l => exact base64Encode_ne_nil b l
  have hnotshort : ¬bytes.length < aesBlockSize := by
    simp [aesBlockSize]
    omega
  unfold decryptPassword
  rw [if_neg hsne, base64Decode_encode bytes hb]
  simp only [hnotshort, if_false]

/-- C9 amended witness: the tampered 17-byte blob decrypts without
error. -/
theorem decrypt_accepts_all_wellformed_blobs_witness :
    decryptPassword E0 (base64Encode (iv0 ++ [98])) =
      Except.ok (cfbDecrypt E0 ((iv0 ++ [98]).take aesBlockSize)
        ((iv0 ++ [98]).drop aesBlockSize)) :=
  decrypt_accepts_all_wellformed_blobs E0 (iv0 ++ [98])
    (by decide) (by decide)

end OracleSqlRunner
